import Mathlib

/-!
Verification of the CloudWatch-logs normalization engine
(src/cloudwatch_logs/cw_logs_to_es/cw_log_parser.py) against its
natural-language specification.

The Python code is shallowly embedded below.  Python strings are Lean
strings; the Python string methods used by the code (split, replace,
strip, startswith, slicing) are re-implemented over the underlying
character lists with structural (fuel-based) recursion so that every
definition evaluates by kernel reduction.  Python dicts are modelled as
insertion-ordered association lists with in-place overwrite, matching
dict assignment and dict.update semantics.  Exceptions are modelled with
Except.  The library call json.loads is abstracted as a parameter
(a function from the message string to either a decoded top-level object
or an exception); datetime.fromtimestamp is modelled at UTC (a fixed
time zone) via the standard civil-from-days calendar algorithm, and
float/int literal parsing is modelled for plain decimal literals, which
is the fragment the report lines use.
-/

/-- Does the character list s start with the pattern p?
Models Python str.startswith restricted to the relevant strings. -/
def listStartsWith : List Char → List Char → Bool
  | _, [] => true
  | [], _ :: _ => false
  | c :: cs, p :: ps => c == p && listStartsWith cs ps

/-- Python s.startswith(p). -/
def pyStartsWith (s p : String) : Bool :=
  listStartsWith s.data p.data

/-- Worker for pySplit: scans left to right, splitting at each
non-overlapping occurrence of the (non-empty) separator.  The fuel
argument starts at the length of the list, which bounds the recursion. -/
def splitOnLGo (sep : List Char) : Nat → List Char → List Char → List (List Char)
  | _, [], acc => [acc.reverse]
  | 0, cs, acc => [acc.reverse ++ cs]
  | fuel + 1, c :: cs, acc =>
    if listStartsWith (c :: cs) sep then
      acc.reverse :: splitOnLGo sep fuel (List.drop (sep.length - 1) cs) []
    else
      splitOnLGo sep fuel cs (c :: acc)

/-- Python s.split(sep) for a non-empty separator sep. -/
def pySplit (s sep : String) : List String :=
  (splitOnLGo sep.data s.data.length s.data []).map (fun cs => String.mk cs)

/-- Worker for pyReplace: replaces each non-overlapping occurrence of the
(non-empty) pattern, scanning left to right. -/
def replaceLGo (pat repl : List Char) : Nat → List Char → List Char
  | _, [] => []
  | 0, cs => cs
  | fuel + 1, c :: cs =>
    if listStartsWith (c :: cs) pat then
      repl ++ replaceLGo pat repl fuel (List.drop (pat.length - 1) cs)
    else
      c :: replaceLGo pat repl fuel cs

/-- Python s.replace(pat, repl) for a non-empty pattern. -/
def pyReplace (s pat repl : String) : String :=
  String.mk (replaceLGo pat.data repl.data s.data.length s.data)

/-- Python's notion of whitespace for str.strip (ASCII fragment). -/
def isPySpace (c : Char) : Bool :=
  c == ' ' || c == '\t' || c == '\n' || c == '\r' || c == '\x0b' || c == '\x0c'

/-- Python s.strip(). -/
def pyStrip (s : String) : String :=
  String.mk (((s.data.dropWhile isPySpace).reverse.dropWhile isPySpace).reverse)

/-- Python s[1:-3], the unit-stripping slice used on report values. -/
def pySliceUnit (s : String) : String :=
  String.mk ((s.data.drop 1).take (s.data.length - 4))

/-- Numeric value of a list of decimal digit characters. -/
def digitsVal (ds : List Char) : Nat :=
  ds.foldl (fun n c => 10 * n + (c.toNat - 48)) 0

/-- Python float(s) for plain decimal literals (optional sign, digits,
optional single decimal point), which is the fragment report lines use.
The result is a scaled integer: (m, k) denotes m / 10 ^ k.
Returns none when Python float() would raise ValueError. -/
def pyFloat (s : String) : Option (Int × Nat) :=
  let cs := (pyStrip s).data
  let sb : Int × List Char :=
    match cs with
    | '+' :: r => (1, r)
    | '-' :: r => (-1, r)
    | r => (1, r)
  let sgn := sb.1
  let body := sb.2
  if body.contains '.' then
    let ip := body.takeWhile (fun c => c != '.')
    let fp := (body.dropWhile (fun c => c != '.')).drop 1
    if fp.contains '.' then none
    else if (ip.all Char.isDigit && fp.all Char.isDigit) && (!ip.isEmpty || !fp.isEmpty) then
      some (sgn * ((digitsVal ip) * 10 ^ fp.length + digitsVal fp), fp.length)
    else none
  else if !body.isEmpty && body.all Char.isDigit then
    some (sgn * digitsVal body, 0)
  else none

/-- Python int(s) for plain decimal literals (optional sign, digits).
Returns none when Python int() would raise ValueError. -/
def pyInt (s : String) : Option Int :=
  let cs := (pyStrip s).data
  let sb : Int × List Char :=
    match cs with
    | '+' :: r => (1, r)
    | '-' :: r => (-1, r)
    | r => (1, r)
  let sgn := sb.1
  let body := sb.2
  if !body.isEmpty && body.all Char.isDigit then some (sgn * digitsVal body) else none

/-- A value stored in a normalized record: the code stores strings,
parsed floats (kept as scaled integers m / 10 ^ k), parsed ints, and the
datetime derived from the event timestamp (kept as the epoch millis it
was derived from). -/
inductive FieldValue where
  | str (s : String)
  | floatv (mantissa : Int) (exp10 : Nat)
  | intv (n : Int)
  | time (millis : Int)
deriving DecidableEq

/-- A Python dict with string keys, as an insertion-ordered association
list whose keys are unique by construction. -/
abbrev Dict := List (String × FieldValue)

/-- Python d[k] = v : overwrite in place when the key exists, append
otherwise. -/
def setKey : Dict → String → FieldValue → Dict
  | [], k, v => [(k, v)]
  | (k0, v0) :: rest, k, v =>
    if k0 == k then (k, v) :: rest else (k0, v0) :: setKey rest k v

/-- Python d.get(k) : the value stored at k, if any. -/
def lookupD : Dict → String → Option FieldValue
  | [], _ => none
  | (k0, v0) :: rest, k => if k0 == k then some v0 else lookupD rest k

/-- Python d.update(u) : fold the entries of u into d, overwriting. -/
def updateDict (d u : Dict) : Dict :=
  u.foldl (fun acc kv => setKey acc kv.1 kv.2) d

/-- A Python exception value: class name and message. -/
structure PyExc where
  name : String
  msg : String
deriving DecidableEq

/-- Python repr(exc), shaped ClassName(message). -/
def reprExc (e : PyExc) : String :=
  e.name ++ "(" ++ e.msg ++ ")"

/-- The abstracted library call json.loads: either the raised exception
or the decoded value.  A success is modelled only when the decoded
value is a top-level object (a dict).  In the real program a non-object
success exists too (the message 42 decodes to the int 42, which
_parse_single_event returns unchanged and which then raises TypeError
inside source.update, crashing the generator); that case is outside
this type, so every theorem below that involves the success path is
stated with an explicit hypothesis placing it on the exception path or
on a top-level-object result, where this model is exact — none of them
asserts anything about non-object successes. -/
def JsonLoads : Type := String → Except PyExc Dict

/-- One decoded log event: the fields id, timestamp (epoch millis) and
message of the entries of log_data["logEvents"]. -/
structure RawLogEvent where
  id : String
  timestamp : Int
  message : String
deriving DecidableEq

/-- The decoded CloudWatch Logs payload handed to parse_log_events. -/
structure LogData where
  owner : String
  logGroup : String
  logStream : String
  logEvents : List RawLogEvent
deriving DecidableEq

/-- One bulk action as built by parse_log_events. -/
structure IndexAction where
  _id : String
  _index : String
  _op_type : String
  _source : Dict
deriving DecidableEq

/-- Days-to-civil-date conversion (proleptic Gregorian calendar):
given a count of days since 1970-01-01 returns (year, month, day).
Used to model the date part of datetime.fromtimestamp at UTC. -/
def civilFromDays (z0 : Int) : Int × Int × Int :=
  let z := z0 + 719468
  let era : Int := z.fdiv 146097
  let doe : Int := z - era * 146097
  let yoe : Int := (doe - doe.fdiv 1460 + doe.fdiv 36524 - doe.fdiv 146096).fdiv 365
  let y : Int := yoe + era * 400
  let doy : Int := doe - (365 * yoe + yoe.fdiv 4 - yoe.fdiv 100)
  let mp : Int := (5 * doy + 2).fdiv 153
  let d : Int := doy - (153 * mp + 2).fdiv 5 + 1
  let m : Int := mp + (if mp < 10 then 3 else -9)
  (y + (if m <= 2 then 1 else 0), m, d)

/-- The (year, month) of datetime.fromtimestamp(millis / 1000.0),
modelled at UTC: the day index is the floor of millis / 86400000. -/
def yearMonthOfMillis (millis : Int) : Int × Int :=
  let ymd := civilFromDays (millis.fdiv 86400000)
  (ymd.1, ymd.2.1)

/-- Zero-pad a month number to two digits, as strftime %m does. -/
def pad2 (n : Int) : String :=
  if n < 10 then "0" ++ toString n else toString n

/-- Zero-pad a (non-negative) year to four digits, as strftime %Y does. -/
def pad4 (y : Int) : String :=
  let s := toString y
  String.mk (List.replicate (4 - s.length) '0') ++ s

/-- Render a (year, month) pair as strftime('%Y-%m') does. -/
def formatYM (ym : Int × Int) : String :=
  pad4 ym.1 ++ "-" ++ pad2 ym.2

/-- timestamp.strftime('%Y-%m') for the datetime derived from millis. -/
def strftimeYM (millis : Int) : String :=
  formatYM (yearMonthOfMillis millis)

/-- The index name assigned to an event:
f-string cw-logs-{timestamp.strftime('%Y-%m')}. -/
def indexNameOf (millis : Int) : String :=
  "cw-logs-" ++ strftimeYM millis

/-- One step of the loop in _parse_control_message: one tab-separated
field of the report line.  Python unpacks field.split(":") into exactly
two names, so any other arity raises ValueError; the numeric branches
raise ValueError when float()/int() cannot parse the unit-stripped
value. -/
def reportStep (report : Dict) (field : String) : Except String Dict :=
  match pySplit field ":" with
  | [key, value] =>
    if key == "REPORT RequestId" then
      Except.ok (setKey report "aws_request_id" (FieldValue.str (pyStrip value)))
    else if key == "Duration" then
      match pyFloat (pySliceUnit value) with
      | some q => Except.ok (setKey report "duration_in_ms" (FieldValue.floatv q.1 q.2))
      | none => Except.error "ValueError: could not convert string to float"
    else if key == "Billed Duration" then
      match pyFloat (pySliceUnit value) with
      | some q => Except.ok (setKey report "billed_duration_in_ms" (FieldValue.floatv q.1 q.2))
      | none => Except.error "ValueError: could not convert string to float"
    else if key == "Memory Size" then
      match pyInt (pySliceUnit value) with
      | some n => Except.ok (setKey report "memory_size_in_mb" (FieldValue.intv n))
      | none => Except.error "ValueError: invalid literal for int"
    else if key == "Max Memory Used" then
      match pyInt (pySliceUnit value) with
      | some n => Except.ok (setKey report "max_memory_used_in_mb" (FieldValue.intv n))
      | none => Except.error "ValueError: invalid literal for int"
    else if key == "Init Duration" then
      match pyFloat (pySliceUnit value) with
      | some q => Except.ok (setKey report "init_duration_in_ms" (FieldValue.floatv q.1 q.2))
      | none => Except.error "ValueError: could not convert string to float"
    else
      Except.ok report
  | _ => Except.error "ValueError: unpack"

/-- CloudWatchLogsParser._parse_control_message: strip the line, split
it on tabs, and fold the per-field loop over the fields, starting from
the dict built as dict(message=clean_control, log_type="REPORT"). -/
def _parse_control_message (control : String) : Except String Dict :=
  let clean_control := pyStrip control
  let fields := pySplit clean_control "\t"
  List.foldlM reportStep
    [("message", FieldValue.str clean_control), ("log_type", FieldValue.str "REPORT")]
    fields

/-- CloudWatchLogsParser._parse_error_message: log_type ERROR plus the
message truncated at the first newline (the whole string when there is
none). -/
def _parse_error_message (error_message : String) : Dict :=
  setKey [("log_type", FieldValue.str "ERROR")] "message"
    (FieldValue.str ((pySplit error_message "\n").headD error_message))

/-- The candidate pair strings of _parse_dirty_json: the message after
brace flattening and newline/backslash/quote stripping, split on the
pair separator.  (The final replace of a backslash-s sequence in the
source is a no-op, all backslashes being already removed; it is kept for
faithfulness.) -/
def dirtyPairs (dirty_json_str : String) : List String :=
  let payload_str :=
    pyReplace (pyReplace (pyReplace (pyReplace (pyReplace (pyReplace
      dirty_json_str "\x7b" ", ") "\x7d" ", ") "\n" "") "\\" "") "\"" "") "\\s" ""
  pySplit payload_str ", "

/-- The loop of _parse_dirty_json over the candidate pairs: split each
pair on the key/value separator; discard it when there is no value or
the key is empty; rename a timestamp key to log_record_timestamp; stop
entirely at a message key; otherwise store the pair. -/
def processPairs : List String → Dict → Dict
  | [], parsed_json => parsed_json
  | pair :: rest, parsed_json =>
    match pySplit pair ": " with
    | arr0 :: arr1 :: _ =>
      if arr0 == "" then processPairs rest parsed_json
      else if arr0 == "timestamp" then
        processPairs rest (setKey parsed_json "log_record_timestamp" (FieldValue.str arr1))
      else if arr0 == "message" then parsed_json
      else processPairs rest (setKey parsed_json arr0 (FieldValue.str arr1))
    | _ => processPairs rest parsed_json

/-- CloudWatchLogsParser._parse_dirty_json. -/
def _parse_dirty_json (dirty_json_str : String) : Dict :=
  processPairs (dirtyPairs dirty_json_str) []

/-- CloudWatchLogsParser._parse_single_event: strict json.loads, falling
back on the dirty parser, tagging either fallback outcome with
cwl_parser_exception = repr(exc). -/
def _parse_single_event (jl : JsonLoads) (json_str : String) : Dict :=
  match jl json_str with
  | Except.ok payload => payload
  | Except.error exc =>
    let recovered := _parse_dirty_json json_str
    if recovered.isEmpty then
      [("message", FieldValue.str json_str),
       ("cwl_parser_exception", FieldValue.str (reprExc exc))]
    else
      setKey recovered "cwl_parser_exception" (FieldValue.str (reprExc exc))

/-- The shared context dict built at the top of parse_log_events. -/
def sharedOf (log_data : LogData) : Dict :=
  [("aws_account", FieldValue.str log_data.owner),
   ("log_group", FieldValue.str log_data.logGroup),
   ("log_stream", FieldValue.str log_data.logStream)]

/-- message.startswith(("START RequestId", "END RequestId")), the
lifecycle filter of parse_log_events. -/
def isLifecycle (message : String) : Bool :=
  pyStartsWith message "START RequestId" || pyStartsWith message "END RequestId"

/-- The sub-parser dispatch chain of parse_log_events for a
non-lifecycle message. -/
def payloadOf (jl : JsonLoads) (message : String) : Except String Dict :=
  if pyStartsWith message "REPORT RequestId" then _parse_control_message message
  else if pyStartsWith message "[ERROR] " then Except.ok (_parse_error_message message)
  else Except.ok (_parse_single_event jl message)

/-- The body of the event loop of parse_log_events for one event:
ok none models the continue on lifecycle lines, ok (some action) a
yielded action, and error an exception escaping the generator. -/
def parseOneEvent (jl : JsonLoads) (shared : Dict) (e : RawLogEvent) :
    Except String (Option IndexAction) :=
  if isLifecycle e.message then
    Except.ok none
  else
    match payloadOf jl e.message with
    | Except.error msg => Except.error msg
    | Except.ok payload =>
      Except.ok (some
        { _id := e.id,
          _index := indexNameOf e.timestamp,
          _op_type := "index",
          _source := setKey (updateDict shared payload) "@timestamp"
            (FieldValue.time e.timestamp) })

/-- The event loop of parse_log_events over the decoded events. -/
def parseEvents (jl : JsonLoads) (shared : Dict) :
    List RawLogEvent → Except String (List IndexAction)
  | [] => Except.ok []
  | e :: rest =>
    match parseOneEvent jl shared e with
    | Except.error msg => Except.error msg
    | Except.ok none => parseEvents jl shared rest
    | Except.ok (some a) =>
      match parseEvents jl shared rest with
      | Except.error msg => Except.error msg
      | Except.ok acts => Except.ok (a :: acts)

/-- CloudWatchLogsParser.parse_log_events: the actions yielded for the
decoded payload, or the exception that escaped the generator. -/
def parse_log_events (jl : JsonLoads) (log_data : LogData) :
    Except String (List IndexAction) :=
  parseEvents jl (sharedOf log_data) log_data.logEvents

/-- The key/value reading of one candidate pair, as the loop of
_parse_dirty_json performs it: the first two segments of the split on
the separator, provided there are at least two and the key is
non-empty.  Used only to state properties of processPairs. -/
def pairKV (pair : String) : Option (String × String) :=
  match pySplit pair ": " with
  | arr0 :: arr1 :: _ => if arr0 == "" then none else some (arr0, arr1)
  | _ => none

/-- The key of a candidate pair, if it is a valid pair. -/
def pairFst (pair : String) : Option String :=
  (pairKV pair).map Prod.fst

/-- The rename _parse_dirty_json applies to keys before storing. -/
def renameKey (k : String) : String :=
  if k == "timestamp" then "log_record_timestamp" else k

/-- The record field name a candidate pair would be stored under. -/
def pairField (pair : String) : Option String :=
  (pairFst pair).map renameKey

/-- Does _parse_control_message reach a numeric conversion that fails
for this key/value field?  (The float keys are checked before the int
keys only to state the property; reportStep fixes the real order.) -/
def numericParseFails (key value : String) : Bool :=
  if key == "Duration" || key == "Billed Duration" || key == "Init Duration" then
    (pyFloat (pySliceUnit value)).isNone
  else if key == "Memory Size" || key == "Max Memory Used" then
    (pyInt (pySliceUnit value)).isNone
  else false

/-- A json.loads stand-in that always raises, as it does on any of the
malformed messages probed below. -/
def jlNone : JsonLoads :=
  fun _ => Except.error ⟨"JSONDecodeError", "Expecting value: line 1 column 1 (char 0)"⟩

/-- A json.loads stand-in agreeing with the real json.loads on the one
well-formed message probed below, and raising elsewhere. -/
def jlAtLogGroup : JsonLoads := fun s =>
  if s = "\x7b\"@log_group\": \"evil\"\x7d" then
    Except.ok [("@log_group", FieldValue.str "evil")]
  else
    Except.error ⟨"JSONDecodeError", "Expecting value: line 1 column 1 (char 0)"⟩

/-- An event whose payload claims the reserved name @log_group. -/
def evAtLogGroup : RawLogEvent :=
  { id := "evt-at-log-group", timestamp := 1609459200000,
    message := "\x7b\"@log_group\": \"evil\"\x7d" }

/-- A batch holding only evAtLogGroup. -/
def ldAtLogGroup : LogData :=
  { owner := "123456789012", logGroup := "lg", logStream := "ls",
    logEvents := [evAtLogGroup] }

/-- A report line whose Duration value does not parse as a float. -/
def evReportBadNum : RawLogEvent :=
  { id := "evt-report-bad-num", timestamp := 1609459200000,
    message := "REPORT RequestId: abc\tDuration: bogus ms" }

/-- A batch holding only evReportBadNum. -/
def ldReportBadNum : LogData :=
  { owner := "123456789012", logGroup := "lg", logStream := "ls",
    logEvents := [evReportBadNum] }

/-- A report line with no colon at all: unpacking its single split
segment into key and value raises ValueError. -/
def evReportNoColon : RawLogEvent :=
  { id := "evt-report-unpack", timestamp := 0, message := "REPORT RequestId" }

/-- A batch holding only evReportNoColon. -/
def ldReportNoColon : LogData :=
  { owner := "123456789012", logGroup := "lg", logStream := "ls",
    logEvents := [evReportNoColon] }

/-- A plain message that is neither a control line nor valid JSON. -/
def evPlain : RawLogEvent :=
  { id := "evt-plain", timestamp := 1609459200000, message := "hello" }

/-- A batch holding only evPlain. -/
def ldPlain : LogData :=
  { owner := "123456789012", logGroup := "lg", logStream := "ls",
    logEvents := [evPlain] }

/-- A lifecycle line. -/
def evLifecycle : RawLogEvent :=
  { id := "evt-lifecycle", timestamp := 1609459200000,
    message := "START RequestId: abc Version: 1" }

/-- The action parse_log_events builds for evPlain (with json.loads
raising): the dirty parser recovers nothing from the word hello, so the
record keeps the raw message plus the parse-failure marker. -/
def aPlain : IndexAction :=
  { _id := "evt-plain",
    _index := "cw-logs-2021-01",
    _op_type := "index",
    _source :=
      [("aws_account", FieldValue.str "123456789012"),
       ("log_group", FieldValue.str "lg"),
       ("log_stream", FieldValue.str "ls"),
       ("message", FieldValue.str "hello"),
       ("cwl_parser_exception",
        FieldValue.str "JSONDecodeError(Expecting value: line 1 column 1 (char 0))"),
       ("@timestamp", FieldValue.time 1609459200000)] }

/-- The action parse_log_events builds for evAtLogGroup: the payload
key @log_group lands verbatim in the record. -/
def aAtLogGroup : IndexAction :=
  { _id := "evt-at-log-group",
    _index := "cw-logs-2021-01",
    _op_type := "index",
    _source :=
      [("aws_account", FieldValue.str "123456789012"),
       ("log_group", FieldValue.str "lg"),
       ("log_stream", FieldValue.str "ls"),
       ("@log_group", FieldValue.str "evil"),
       ("@timestamp", FieldValue.time 1609459200000)] }

theorem civilFromDays_epoch : civilFromDays 0 = (1970, 1, 1) := by decide

theorem strftimeYM_epoch : strftimeYM 0 = "1970-01" := by decide

theorem dirty_json_sanity :
    _parse_dirty_json "timestamp: 2021-01-01, foo: bar, message: ignored nested" =
      [("log_record_timestamp", FieldValue.str "2021-01-01"),
       ("foo", FieldValue.str "bar")] := by decide

theorem control_message_sanity :
    _parse_control_message
      "REPORT RequestId: abc-123\tDuration: 125.40 ms\tBilled Duration: 126 ms\tMemory Size: 256 MB\tMax Memory Used: 98 MB" =
      Except.ok
        [("message", FieldValue.str
            "REPORT RequestId: abc-123\tDuration: 125.40 ms\tBilled Duration: 126 ms\tMemory Size: 256 MB\tMax Memory Used: 98 MB"),
         ("log_type", FieldValue.str "REPORT"),
         ("aws_request_id", FieldValue.str "abc-123"),
         ("duration_in_ms", FieldValue.floatv 12540 2),
         ("billed_duration_in_ms", FieldValue.floatv 126 0),
         ("memory_size_in_mb", FieldValue.intv 256),
         ("max_memory_used_in_mb", FieldValue.intv 98)] := rfl

theorem error_message_sanity :
    _parse_error_message "[ERROR] Something broke\nTraceback line 1\nTraceback line 2" =
      [("log_type", FieldValue.str "ERROR"),
       ("message", FieldValue.str "[ERROR] Something broke")] := by decide

theorem lookupD_setKey_self (d : Dict) (k : String) (v : FieldValue) :
    lookupD (setKey d k v) k = some v := by
  induction d with
  | nil => simp [setKey, lookupD]
  | cons kv rest ih =>
    obtain ⟨k0, v0⟩ := kv
    by_cases h : k0 = k
    · subst h
      simp [setKey, lookupD]
    · simp [setKey, lookupD, h, ih]

theorem lookupD_setKey_ne (d : Dict) (k k2 : String) (v : FieldValue) (h : k ≠ k2) :
    lookupD (setKey d k v) k2 = lookupD d k2 := by
  induction d with
  | nil => simp [setKey, lookupD, h]
  | cons kv rest ih =>
    obtain ⟨k0, v0⟩ := kv
    by_cases h0 : k0 = k
    · subst h0
      simp [setKey, lookupD, h]
    · simp [setKey, lookupD, h0, ih]

theorem lookupD_setKey_ne_none (d : Dict) (k k2 : String) (v : FieldValue)
    (h : lookupD (setKey d k v) k2 ≠ none) : k = k2 ∨ lookupD d k2 ≠ none := by
  by_cases hk : k = k2
  · exact Or.inl hk
  · exact Or.inr (by rwa [lookupD_setKey_ne d k k2 v hk] at h)

theorem lookupD_updateDict_none (u : Dict) (d : Dict) (k : String)
    (h : lookupD u k = none) : lookupD (updateDict d u) k = lookupD d k := by
  induction u generalizing d with
  | nil => simp [updateDict]
  | cons kv rest ih =>
    obtain ⟨k0, v0⟩ := kv
    have hne : k0 ≠ k := by
      intro he
      simp [lookupD, he] at h
    have hr : lookupD rest k = none := by
      simpa [lookupD, hne] using h
    have : updateDict d ((k0, v0) :: rest) = updateDict (setKey d k0 v0) rest := rfl
    rw [this, ih (setKey d k0 v0) hr, lookupD_setKey_ne d k0 k v0 hne]

theorem processPairs_cons_skip (pair : String) (rest : List String) (acc : Dict)
    (h : pairKV pair = none) :
    processPairs (pair :: rest) acc = processPairs rest acc := by
  unfold pairKV at h
  rcases hsplit : pySplit pair ": " with _ | ⟨a0, _ | ⟨a1, tl⟩⟩ <;>
    rw [hsplit] at h
  · simp only [processPairs, hsplit]
  · simp only [processPairs, hsplit]
  · by_cases h0 : a0 = ""
    · simp only [processPairs, hsplit, h0]
      simp
    · simp [h0] at h

theorem processPairs_cons_stop (pair : String) (rest : List String) (acc : Dict)
    (h : pairFst pair = some "message") :
    processPairs (pair :: rest) acc = acc := by
  unfold pairFst pairKV at h
  rcases hsplit : pySplit pair ": " with _ | ⟨a0, _ | ⟨a1, tl⟩⟩ <;>
    rw [hsplit] at h
  · simp at h
  · simp at h
  · by_cases h0 : a0 = ""
    · simp [h0] at h
    · have hm : a0 = "message" := (by simpa using h : ¬a0 = "" ∧ a0 = "message").2
      subst hm
      simp only [processPairs, hsplit]
      simp

theorem processPairs_cons_write (pair : String) (rest : List String) (acc : Dict)
    (k v : String) (h : pairKV pair = some (k, v)) (hk : k ≠ "message") :
    processPairs (pair :: rest) acc =
      processPairs rest (setKey acc (renameKey k) (FieldValue.str v)) := by
  unfold pairKV at h
  rcases hsplit : pySplit pair ": " with _ | ⟨a0, _ | ⟨a1, tl⟩⟩ <;>
    rw [hsplit] at h
  · simp at h
  · simp at h
  · by_cases h0 : a0 = ""
    · simp [h0] at h
    · have hh : a0 = k ∧ a1 = v :=
        (by simpa using h : ¬a0 = "" ∧ a0 = k ∧ a1 = v).2
      obtain ⟨hka, hva⟩ := hh
      subst hka
      subst hva
      unfold renameKey
      by_cases ht : a0 = "timestamp"
      · simp only [processPairs, hsplit, ht]
        simp
      · simp only [processPairs, hsplit]
        simp [h0, ht, hk]

theorem processPairs_stop_at_msg (pre : List String) (m : String) (rest : List String)
    (acc : Dict) (hm : pairFst m = some "message")
    (hpre : ∀ p ∈ pre, pairFst p ≠ some "message") :
    processPairs (pre ++ m :: rest) acc = processPairs pre acc := by
  induction pre generalizing acc with
  | nil =>
    simpa using processPairs_cons_stop m rest acc hm
  | cons p pre ih =>
    have hp : pairFst p ≠ some "message" := hpre p (by simp)
    have hpre2 : ∀ q ∈ pre, pairFst q ≠ some "message" :=
      fun q hq => hpre q (by simp [hq])
    rcases hkv : pairKV p with _ | ⟨k, v⟩
    · rw [List.cons_append, processPairs_cons_skip p _ acc hkv,
        processPairs_cons_skip p pre acc hkv]
      exact ih acc hpre2
    · have hk : k ≠ "message" := by
        intro he
        exact hp (by simp [pairFst, hkv, he])
      rw [List.cons_append, processPairs_cons_write p _ acc k v hkv hk,
        processPairs_cons_write p pre acc k v hkv hk]
      exact ih _ hpre2

theorem processPairs_append (xs ys : List String) (acc : Dict)
    (hx : ∀ p ∈ xs, pairFst p ≠ some "message") :
    processPairs (xs ++ ys) acc = processPairs ys (processPairs xs acc) := by
  induction xs generalizing acc with
  | nil => simp [processPairs]
  | cons p xs ih =>
    have hp : pairFst p ≠ some "message" := hx p (by simp)
    have hx2 : ∀ q ∈ xs, pairFst q ≠ some "message" :=
      fun q hq => hx q (by simp [hq])
    rcases hkv : pairKV p with _ | ⟨k, v⟩
    · rw [List.cons_append, processPairs_cons_skip p _ acc hkv,
        processPairs_cons_skip p xs acc hkv]
      exact ih acc hx2
    · have hk : k ≠ "message" := by
        intro he
        exact hp (by simp [pairFst, hkv, he])
      rw [List.cons_append, processPairs_cons_write p _ acc k v hkv hk,
        processPairs_cons_write p xs acc k v hkv hk]
      exact ih _ hx2

theorem lookupD_processPairs_frame (ps : List String) (acc : Dict) (k : String)
    (hmsg : ∀ p ∈ ps, pairFst p ≠ some "message")
    (hfld : ∀ p ∈ ps, pairField p ≠ some k) :
    lookupD (processPairs ps acc) k = lookupD acc k := by
  induction ps generalizing acc with
  | nil => simp [processPairs]
  | cons p ps ih =>
    have hp : pairFst p ≠ some "message" := hmsg p (by simp)
    have hmsg2 : ∀ q ∈ ps, pairFst q ≠ some "message" :=
      fun q hq => hmsg q (by simp [hq])
    have hfld2 : ∀ q ∈ ps, pairField q ≠ some k :=
      fun q hq => hfld q (by simp [hq])
    rcases hkv : pairKV p with _ | ⟨k0, v0⟩
    · rw [processPairs_cons_skip p ps acc hkv]
      exact ih acc hmsg2 hfld2
    · have hk0 : k0 ≠ "message" := by
        intro he
        exact hp (by simp [pairFst, hkv, he])
      rw [processPairs_cons_write p ps acc k0 v0 hkv hk0]
      have hrn : renameKey k0 ≠ k := by
        intro he
        exact hfld p (by simp) (by simp [pairField, pairFst, hkv, he])
      rw [ih _ hmsg2 hfld2, lookupD_setKey_ne acc _ k _ hrn]

theorem lookupD_processPairs_domain (ps : List String) (acc : Dict) (k : String)
    (h : lookupD (processPairs ps acc) k ≠ none) :
    lookupD acc k ≠ none ∨ ∃ p ∈ ps, pairField p = some k := by
  induction ps generalizing acc with
  | nil =>
    exact Or.inl (by simpa [processPairs] using h)
  | cons p ps ih =>
    rcases hkv : pairKV p with _ | ⟨k0, v0⟩
    · rw [processPairs_cons_skip p ps acc hkv] at h
      rcases ih acc h with h1 | ⟨q, hq, hql⟩
      · exact Or.inl h1
      · exact Or.inr ⟨q, by simp [hq], hql⟩
    · by_cases hk0 : k0 = "message"
      · subst hk0
        rw [processPairs_cons_stop p ps acc (by simp [pairFst, hkv])] at h
        exact Or.inl h
      · rw [processPairs_cons_write p ps acc k0 v0 hkv hk0] at h
        rcases ih _ h with h1 | ⟨q, hq, hql⟩
        · rcases lookupD_setKey_ne_none acc _ k _ h1 with he | h2
          · exact Or.inr ⟨p, by simp, by simp [pairField, pairFst, hkv, he]⟩
          · exact Or.inl h2
        · exact Or.inr ⟨q, by simp [hq], hql⟩

theorem reportFold_append (xs ys : List String) (r0 r1 : Dict)
    (h : List.foldlM reportStep r0 xs = Except.ok r1) :
    List.foldlM reportStep r0 (xs ++ ys) = List.foldlM reportStep r1 ys := by
  induction xs generalizing r0 with
  | nil =>
    have hr : r0 = r1 := by
      have : (Except.ok r0 : Except String Dict) = Except.ok r1 := h
      simpa using this
    subst hr
    rfl
  | cons x xs ih =>
    have hcons : List.foldlM reportStep r0 (x :: xs) =
        (reportStep r0 x >>= fun r2 => List.foldlM reportStep r2 xs) := rfl
    have hcons2 : List.foldlM reportStep r0 ((x :: xs) ++ ys) =
        (reportStep r0 x >>= fun r2 => List.foldlM reportStep r2 (xs ++ ys)) := rfl
    rcases hx : reportStep r0 x with msg | r2
    · rw [hcons, hx] at h
      exact absurd h (by simp [Bind.bind, Except.bind])
    · rw [hcons, hx] at h
      rw [hcons2, hx]
      have hb : ∀ (g : Dict → Except String Dict), (Except.ok r2 >>= g) = g r2 :=
        fun g => rfl
      rw [hb] at h
      rw [hb]
      exact ih r2 h

theorem reportFold_cons_error (r : Dict) (field : String) (fields2 : List String)
    (msg : String) (hstep : reportStep r field = Except.error msg) :
    List.foldlM reportStep r (field :: fields2) = Except.error msg := by
  have hcons : List.foldlM reportStep r (field :: fields2) =
      (reportStep r field >>= fun r2 => List.foldlM reportStep r2 fields2) := rfl
  rw [hcons, hstep]
  rfl

theorem reportStep_error (r : Dict) (field key value : String)
    (hsplit : pySplit field ":" = [key, value])
    (hfail : numericParseFails key value = true) :
    ∃ msg, reportStep r field = Except.error msg := by
  unfold numericParseFails at hfail
  by_cases hflt : (key == "Duration" || key == "Billed Duration" || key == "Init Duration") = true
  · have hnone : pyFloat (pySliceUnit value) = none := by
      rw [hflt] at hfail
      simpa [Option.isNone_iff_eq_none] using hfail
    have hkey : (key = "Duration" ∨ key = "Billed Duration") ∨ key = "Init Duration" := by
      simpa using hflt
    rcases hkey with (hk | hk) | hk <;> subst hk <;>
      exact ⟨"ValueError: could not convert string to float",
        by simp [reportStep, hsplit, hnone]⟩
  · rw [Bool.not_eq_true] at hflt
    rw [hflt] at hfail
    by_cases hint : (key == "Memory Size" || key == "Max Memory Used") = true
    · have hnone : pyInt (pySliceUnit value) = none := by
        rw [hint] at hfail
        simpa [Option.isNone_iff_eq_none] using hfail
      have hkey : key = "Memory Size" ∨ key = "Max Memory Used" := by
        simpa using hint
      have hnf : key ≠ "Duration" ∧ key ≠ "Billed Duration" ∧ key ≠ "Init Duration" := by
        rcases hkey with hk | hk <;> subst hk <;> exact ⟨by decide, by decide, by decide⟩
      rcases hkey with hk | hk <;> subst hk <;>
        exact ⟨"ValueError: invalid literal for int",
          by simp [reportStep, hsplit, hnone]⟩
    · rw [Bool.not_eq_true] at hint
      rw [hint] at hfail
      exact absurd hfail (by simp)

theorem parseOneEvent_ok_none_iff (jl : JsonLoads) (shared : Dict) (e : RawLogEvent) :
    parseOneEvent jl shared e = Except.ok none ↔ isLifecycle e.message = true := by
  constructor
  · intro h
    by_cases hl : isLifecycle e.message = true
    · exact hl
    · rw [Bool.not_eq_true] at hl
      exfalso
      unfold parseOneEvent at h
      rw [hl] at h
      simp only [Bool.false_eq_true, if_false] at h
      rcases hp : payloadOf jl e.message with msg | payload <;> rw [hp] at h <;> simp at h
  · intro h
    unfold parseOneEvent
    rw [h]
    rfl

theorem parseEvents_length (jl : JsonLoads) (shared : Dict) (evs : List RawLogEvent) :
    ∀ acts : List IndexAction, parseEvents jl shared evs = Except.ok acts →
      acts.length = (evs.filter (fun e => !(isLifecycle e.message))).length := by
  induction evs with
  | nil =>
    intro acts h
    have ha : ([] : List IndexAction) = acts := by simpa [parseEvents] using h
    rw [← ha]
    rfl
  | cons e evs ih =>
    intro acts h
    simp only [parseEvents] at h
    rcases hp : parseOneEvent jl shared e with msg | op <;> rw [hp] at h
    · simp at h
    · rcases op with _ | a
      · have hl : isLifecycle e.message = true :=
          (parseOneEvent_ok_none_iff jl shared e).mp hp
        rw [List.filter_cons]
        simp only [hl, Bool.not_true, Bool.false_eq_true, if_false]
        exact ih acts h
      · have hl : isLifecycle e.message = false := by
          by_cases hc : isLifecycle e.message = true
          · rw [← parseOneEvent_ok_none_iff jl shared e] at hc
            rw [hc] at hp
            simp at hp
          · exact Bool.not_eq_true _ |>.mp hc
        rcases hr : parseEvents jl shared evs with m2 | acts2 <;> rw [hr] at h
        · simp at h
        · have hacts : a :: acts2 = acts := by simpa using h
          rw [← hacts, List.filter_cons]
          simp only [hl, Bool.not_false, if_true]
          simp [ih acts2 hr]

theorem parseOneEvent_ok_some (jl : JsonLoads) (shared : Dict) (e : RawLogEvent)
    (a : IndexAction) (h : parseOneEvent jl shared e = Except.ok (some a)) :
    ∃ payload, payloadOf jl e.message = Except.ok payload ∧
      a = { _id := e.id,
            _index := indexNameOf e.timestamp,
            _op_type := "index",
            _source := setKey (updateDict shared payload) "@timestamp"
              (FieldValue.time e.timestamp) } := by
  unfold parseOneEvent at h
  by_cases hl : isLifecycle e.message = true
  · rw [hl] at h
    simp at h
  · rw [Bool.not_eq_true] at hl
    rw [hl] at h
    simp only [Bool.false_eq_true, if_false] at h
    rcases hp : payloadOf jl e.message with msg | payload <;> rw [hp] at h
    · simp at h
    · refine ⟨payload, rfl, ?_⟩
      have := (by simpa using h : _ = a)
      exact this.symm

/-- C1 (amended): the record field named @timestamp is assigned after
the payload merge and so always carries the value derived from the
event's timestampMillis; the StreamContext values, however, are stored
under the un-prefixed names aws_account, log_group and log_stream, and
they keep their context-derived values exactly when the payload does not
itself use those un-prefixed names (payload keys such as @log_group only
add new fields and never touch them). -/
theorem c1_reserved_fields_amended (jl : JsonLoads) (d : LogData) (e : RawLogEvent)
    (payload : Dict) (a : IndexAction)
    (hjson : jl e.message = Except.ok payload)
    (h1 : pyStartsWith e.message "START RequestId" = false)
    (h2 : pyStartsWith e.message "END RequestId" = false)
    (h3 : pyStartsWith e.message "REPORT RequestId" = false)
    (h4 : pyStartsWith e.message "[ERROR] " = false)
    (ha : parseOneEvent jl (sharedOf d) e = Except.ok (some a)) :
    lookupD a._source "@timestamp" = some (FieldValue.time e.timestamp) ∧
    (lookupD payload "aws_account" = none →
      lookupD a._source "aws_account" = some (FieldValue.str d.owner)) ∧
    (lookupD payload "log_group" = none →
      lookupD a._source "log_group" = some (FieldValue.str d.logGroup)) ∧
    (lookupD payload "log_stream" = none →
      lookupD a._source "log_stream" = some (FieldValue.str d.logStream)) := by
  obtain ⟨p2, hp, haeq⟩ := parseOneEvent_ok_some jl (sharedOf d) e a ha
  have hp2 : p2 = payload := by
    unfold payloadOf at hp
    rw [h3] at hp
    simp only [Bool.false_eq_true, if_false] at hp
    rw [h4] at hp
    simp only [Bool.false_eq_true, if_false] at hp
    have hse : _parse_single_event jl e.message = p2 := by simpa using hp
    rw [← hse]
    unfold _parse_single_event
    rw [hjson]
  subst hp2
  rw [haeq]
  refine ⟨lookupD_setKey_self _ _ _, ?_, ?_, ?_⟩
  · intro hnone
    rw [lookupD_setKey_ne _ _ _ _ (by decide)]
    rw [lookupD_updateDict_none p2 _ _ hnone]
    simp [sharedOf, lookupD]
  · intro hnone
    rw [lookupD_setKey_ne _ _ _ _ (by decide)]
    rw [lookupD_updateDict_none p2 _ _ hnone]
    simp [sharedOf, lookupD]
  · intro hnone
    rw [lookupD_setKey_ne _ _ _ _ (by decide)]
    rw [lookupD_updateDict_none p2 _ _ hnone]
    simp [sharedOf, lookupD]

/-- C1 (counterexample): the payload of evAtLogGroup has the reserved
top-level key @log_group, yet the emitted record carries the payload's
value for that field, not a value derived from the StreamContext (whose
log group is the distinct string lg): the record fields named with the
@-prefix are not context-derived at all. -/
theorem c1_reserved_at_keys_counterexample :
    parse_log_events jlAtLogGroup ldAtLogGroup = Except.ok [aAtLogGroup] ∧
    lookupD aAtLogGroup._source "@log_group" = some (FieldValue.str "evil") ∧
    FieldValue.str "evil" ≠ FieldValue.str ldAtLogGroup.logGroup :=
  ⟨rfl, by decide, by decide⟩

/-- C1 (witness): the amended theorem applied to the event evAtLogGroup
whose payload is the single pair @log_group = evil. -/
theorem c1_reserved_fields_witness :
    lookupD aAtLogGroup._source "@timestamp" = some (FieldValue.time 1609459200000) ∧
    lookupD aAtLogGroup._source "log_group" = some (FieldValue.str "lg") :=
  have h := c1_reserved_fields_amended jlAtLogGroup ldAtLogGroup evAtLogGroup
    [("@log_group", FieldValue.str "evil")] aAtLogGroup rfl rfl rfl rfl rfl rfl
  ⟨h.1, h.2.2.1 rfl⟩

/-- C2 (amended): for every event whose message does not begin with a
lifecycle or REPORT marker and is malformed in the claim's sense —
strict json.loads raises on it — or is an ERROR-prefixed line (which
never reaches json.loads), parse_log_events does not raise and yields
exactly one record for the event, whose body on the payload path is the
shared context merged with the best-effort fields of
_parse_single_event plus the event timestamp.  Malformed REPORT lines,
however, do raise (see the counterexample); and this claim says nothing
about well-formed messages, whose decoded value may be a non-object
that crashes dict.update in the real program. -/
theorem c2_malformed_payload_amended (jl : JsonLoads) (shared : Dict) (e : RawLogEvent)
    (h1 : pyStartsWith e.message "START RequestId" = false)
    (h2 : pyStartsWith e.message "END RequestId" = false)
    (h3 : pyStartsWith e.message "REPORT RequestId" = false)
    (hmal : (∃ exc, jl e.message = Except.error exc) ∨
      pyStartsWith e.message "[ERROR] " = true) :
    ∃ a, parseOneEvent jl shared e = Except.ok (some a) ∧
      (pyStartsWith e.message "[ERROR] " = false →
        a._source = setKey (updateDict shared (_parse_single_event jl e.message))
          "@timestamp" (FieldValue.time e.timestamp)) := by
  unfold parseOneEvent
  have hl : isLifecycle e.message = false := by
    unfold isLifecycle
    rw [h1, h2]
    rfl
  rw [hl]
  simp only [Bool.false_eq_true, if_false]
  unfold payloadOf
  rw [h3]
  simp only [Bool.false_eq_true, if_false]
  by_cases he : pyStartsWith e.message "[ERROR] " = true
  · rw [he]
    refine ⟨_, rfl, fun hce => ?_⟩
    exact absurd hce (by decide)
  · rw [Bool.not_eq_true] at he
    rw [he]
    exact ⟨_, rfl, fun _ => rfl⟩

/-- C2 (counterexample): the report line of evReportBadNum is malformed
(its Duration value does not parse as a float), and parse_log_events
raises a ValueError instead of yielding a best-effort record for the
event. -/
theorem c2_malformed_report_counterexample :
    parse_log_events jlNone ldReportBadNum =
      Except.error "ValueError: could not convert string to float" := rfl

/-- C2 (witness): the amended theorem applied to evPlain, whose message
hello is not valid JSON, with a json.loads that raises on it. -/
theorem c2_malformed_payload_witness :
    ∃ a, parseOneEvent jlNone (sharedOf ldPlain) evPlain = Except.ok (some a) ∧
      (pyStartsWith evPlain.message "[ERROR] " = false →
        a._source = setKey (updateDict (sharedOf ldPlain)
          (_parse_single_event jlNone evPlain.message))
          "@timestamp" (FieldValue.time evPlain.timestamp)) :=
  c2_malformed_payload_amended jlNone (sharedOf ldPlain) evPlain rfl rfl rfl
    (Or.inl ⟨⟨"JSONDecodeError", "Expecting value: line 1 column 1 (char 0)"⟩, rfl⟩)

/-- C3 (amended): when some numeric field of a report line fails to
parse after unit stripping, _parse_control_message does not skip the
field: it raises a ValueError, so the whole record (including every
field parsed before the failing one) is dropped. -/
theorem c3_numeric_failure_aborts_report (control : String) (fields1 : List String)
    (field : String) (fields2 : List String) (r1 : Dict) (key value : String)
    (hfields : pySplit (pyStrip control) "\t" = fields1 ++ field :: fields2)
    (hok : List.foldlM reportStep
      [("message", FieldValue.str (pyStrip control)), ("log_type", FieldValue.str "REPORT")]
      fields1 = Except.ok r1)
    (hsplit : pySplit field ":" = [key, value])
    (hfail : numericParseFails key value = true) :
    ∃ msg, _parse_control_message control = Except.error msg := by
  obtain ⟨msg, hstep⟩ := reportStep_error r1 field key value hsplit hfail
  refine ⟨msg, ?_⟩
  show List.foldlM reportStep
    [("message", FieldValue.str (pyStrip control)), ("log_type", FieldValue.str "REPORT")]
    (pySplit (pyStrip control) "\t") = Except.error msg
  rw [hfields, reportFold_append _ _ _ r1 hok, reportFold_cons_error r1 field fields2 msg hstep]

/-- C3 (counterexample): in this report line the Memory Size field
parses but the Duration value twelve does not; the claim demands a
record that still carries memory_size_in_mb, log_type and the verbatim
message, yet _parse_control_message raises ValueError and produces no
record at all. -/
theorem c3_numeric_field_counterexample :
    _parse_control_message
      "REPORT RequestId: def\tMemory Size: 64 MB\tDuration: twelve ms" =
      Except.error "ValueError: could not convert string to float" := rfl

/-- C3 (witness): the amended theorem applied to the report line of
evReportBadNum, split as one good field followed by the bad Duration
field. -/
theorem c3_numeric_failure_witness :
    ∃ msg, _parse_control_message "REPORT RequestId: abc\tDuration: bogus ms" =
      Except.error msg :=
  c3_numeric_failure_aborts_report "REPORT RequestId: abc\tDuration: bogus ms"
    ["REPORT RequestId: abc"] "Duration: bogus ms" []
    [("message", FieldValue.str "REPORT RequestId: abc\tDuration: bogus ms"),
     ("log_type", FieldValue.str "REPORT"),
     ("aws_request_id", FieldValue.str "abc")]
    "Duration" " bogus ms" rfl rfl rfl rfl

/-- C4 (amended): every event whose message begins with a lifecycle
marker yields no IndexAction, and whenever parse_log_events completes
without raising it yields exactly one IndexAction per non-lifecycle
event; a malformed REPORT line, however, raises instead of yielding
(see the counterexample). -/
theorem c4_lifecycle_filter_amended :
    (∀ (jl : JsonLoads) (shared : Dict) (e : RawLogEvent),
      isLifecycle e.message = true → parseOneEvent jl shared e = Except.ok none) ∧
    (∀ (jl : JsonLoads) (d : LogData) (acts : List IndexAction),
      parse_log_events jl d = Except.ok acts →
      acts.length = (d.logEvents.filter (fun e => !(isLifecycle e.message))).length) := by
  constructor
  · intro jl shared e h
    exact (parseOneEvent_ok_none_iff jl shared e).mpr h
  · intro jl d acts h
    exact parseEvents_length jl (sharedOf d) d.logEvents acts h

/-- C4 (counterexample): the message of evReportNoColon does not begin
with a lifecycle prefix, yet parse_log_events yields no IndexAction for
it: unpacking the colon-less report field raises ValueError. -/
theorem c4_exactly_one_counterexample :
    parse_log_events jlNone ldReportNoColon = Except.error "ValueError: unpack" ∧
    isLifecycle evReportNoColon.message = false :=
  ⟨rfl, rfl⟩

/-- C4 (witness): the lifecycle half of the amended theorem applied to
the START line of evLifecycle. -/
theorem c4_lifecycle_filter_witness :
    parseOneEvent jlNone (sharedOf ldPlain) evLifecycle = Except.ok none :=
  c4_lifecycle_filter_amended.1 jlNone (sharedOf ldPlain) evLifecycle rfl

/-- C5: the pipeline is a pure function of the event and the shared
context, so any two runs of parse_log_events over the same event agree
on _id, _index and _source, and the document id is the event's own id
(which is what makes re-delivery overwrite rather than duplicate). -/
theorem c5_idempotent_reprocessing (jl : JsonLoads) (shared : Dict) (e : RawLogEvent)
    (a1 a2 : IndexAction)
    (h1 : parseOneEvent jl shared e = Except.ok (some a1))
    (h2 : parseOneEvent jl shared e = Except.ok (some a2)) :
    a1._id = a2._id ∧ a1._index = a2._index ∧ a1._source = a2._source ∧ a1._id = e.id := by
  have h12 : a1 = a2 := by
    have h := h1.symm.trans h2
    simpa using h
  obtain ⟨p, hp, ha⟩ := parseOneEvent_ok_some jl shared e a1 h1
  refine ⟨by rw [h12], by rw [h12], by rw [h12], ?_⟩
  rw [ha]

/-- C5 (witness): two identical runs over evPlain agree on all action
components and carry the event id. -/
theorem c5_idempotent_witness :
    aPlain._id = aPlain._id ∧ aPlain._index = aPlain._index ∧
    aPlain._source = aPlain._source ∧ aPlain._id = "evt-plain" :=
  c5_idempotent_reprocessing jlNone (sharedOf ldPlain) evPlain aPlain aPlain rfl rfl

/-- C6: the index name of every emitted action is the fixed prefix
cw-logs- followed by the zero-padded year and month of the event's own
timestampMillis, and any event falling in the same calendar month is
routed to the same index; nothing else enters the computation. -/
theorem c6_index_name_month_bucket (jl : JsonLoads) (shared : Dict) (e : RawLogEvent)
    (a : IndexAction) (h : parseOneEvent jl shared e = Except.ok (some a)) :
    a._index = "cw-logs-" ++ formatYM (yearMonthOfMillis e.timestamp) ∧
    (∀ e2 : RawLogEvent, yearMonthOfMillis e2.timestamp = yearMonthOfMillis e.timestamp →
      indexNameOf e2.timestamp = a._index) := by
  obtain ⟨p, hp, ha⟩ := parseOneEvent_ok_some jl shared e a h
  constructor
  · rw [ha]
    rfl
  · intro e2 hym
    rw [ha]
    show indexNameOf e2.timestamp = indexNameOf e.timestamp
    unfold indexNameOf strftimeYM
    rw [hym]

/-- C6 (witness): the action built for evPlain (January 2021) carries
the month-bucket index name. -/
theorem c6_index_name_witness :
    aPlain._index = "cw-logs-" ++ formatYM (yearMonthOfMillis 1609459200000) :=
  (c6_index_name_month_bucket jlNone (sharedOf ldPlain) evPlain aPlain rfl).1

/-- C7 (amended): the dirty parser stops at the first message-keyed
candidate pair: every field of the output comes from a pair strictly
before that one.  When a timestamp-keyed pair occurs before the first
message-keyed pair, and no other pair before that point would be stored
under log_record_timestamp, the output carries log_record_timestamp with
that pair's value.  (As stated the claim fails when a message-keyed pair
precedes the timestamp pair: see the counterexample.) -/
theorem c7_stop_and_rename_amended (s : String) (pre1 : List String) (tp : String)
    (pre2 : List String) (m : String) (rest : List String) (v : String)
    (hsplit : dirtyPairs s = pre1 ++ tp :: pre2 ++ m :: rest)
    (htp : pairKV tp = some ("timestamp", v))
    (hm : pairFst m = some "message")
    (hpre : ∀ p ∈ pre1 ++ pre2, pairFst p ≠ some "message" ∧
      pairField p ≠ some "log_record_timestamp") :
    lookupD (_parse_dirty_json s) "log_record_timestamp" = some (FieldValue.str v) ∧
    (∀ k, lookupD (_parse_dirty_json s) k ≠ none →
      ∃ p ∈ pre1 ++ tp :: pre2, pairField p = some k) := by
  have htpf : pairFst tp = some "timestamp" := by simp [pairFst, htp]
  have hnomsg : ∀ p ∈ pre1 ++ tp :: pre2, pairFst p ≠ some "message" := by
    intro p hp
    rcases List.mem_append.mp hp with hin | hin
    · exact (hpre p (List.mem_append.mpr (Or.inl hin))).1
    · rcases List.mem_cons.mp hin with he | hin2
      · subst he
        rw [htpf]
        simp
      · exact (hpre p (List.mem_append.mpr (Or.inr hin2))).1
  have hassoc : dirtyPairs s = (pre1 ++ tp :: pre2) ++ m :: rest := by
    rw [hsplit]
  have hstop : _parse_dirty_json s = processPairs (pre1 ++ tp :: pre2) [] := by
    unfold _parse_dirty_json
    rw [hassoc]
    exact processPairs_stop_at_msg _ m rest [] hm hnomsg
  constructor
  · rw [hstop]
    rw [processPairs_append pre1 (tp :: pre2) []
      (fun p hp => (hpre p (List.mem_append.mpr (Or.inl hp))).1)]
    rw [processPairs_cons_write tp pre2 _ "timestamp" v htp (by decide)]
    rw [show renameKey "timestamp" = "log_record_timestamp" from rfl]
    rw [lookupD_processPairs_frame pre2 _ "log_record_timestamp"
      (fun p hp => (hpre p (List.mem_append.mpr (Or.inr hp))).1)
      (fun p hp => (hpre p (List.mem_append.mpr (Or.inr hp))).2)]
    exact lookupD_setKey_self _ _ _
  · intro k hk
    rw [hstop] at hk
    rcases lookupD_processPairs_domain _ [] k hk with h1 | h2
    · exact absurd rfl h1
    · exact h2

/-- C7 (counterexample): the candidate pairs of this message contain a
timestamp pair followed later by a message pair, exactly the premise of
the claim, but the dirty parser stops at the FIRST message pair, which
comes earlier still, so the output is empty and in particular carries no
log_record_timestamp. -/
theorem c7_stop_rule_counterexample :
    dirtyPairs "message: a, timestamp: T, message: b, extra: X" =
      ["message: a", "timestamp: T", "message: b", "extra: X"] ∧
    _parse_dirty_json "message: a, timestamp: T, message: b, extra: X" = [] :=
  ⟨by decide, by decide⟩

/-- C7 (witness): the amended theorem applied to a message whose
timestamp pair precedes its message pair, which is followed by an extra
pair; the renamed timestamp survives. -/
theorem c7_stop_and_rename_witness :
    lookupD (_parse_dirty_json "a: 1, timestamp: T, message: x, extra: Y")
      "log_record_timestamp" = some (FieldValue.str "T") :=
  (c7_stop_and_rename_amended "a: 1, timestamp: T, message: x, extra: Y"
    ["a: 1"] "timestamp: T" [] "message: x" ["extra: Y"] "T"
    (by decide) (by decide) (by decide) (by decide)).1

/-- C8 (amended): a surviving candidate pair is split on EVERY
occurrence of the separator and the stored value is only the second
segment (the text between the first and second occurrence), not the
whole remainder after the first occurrence. -/
theorem c8_pair_split_amended (pair : String) (rest : List String) (acc : Dict)
    (arr0 arr1 : String) (tl : List String)
    (hsplit : pySplit pair ": " = arr0 :: arr1 :: tl)
    (h0 : arr0 ≠ "") (h1 : arr0 ≠ "timestamp") (h2 : arr0 ≠ "message") :
    processPairs (pair :: rest) acc =
      processPairs rest (setKey acc arr0 (FieldValue.str arr1)) := by
  have hkv : pairKV pair = some (arr0, arr1) := by
    unfold pairKV
    rw [hsplit]
    simp [h0]
  have hw := processPairs_cons_write pair rest acc arr0 arr1 hkv h2
  rwa [show renameKey arr0 = arr0 from by simp [renameKey, h1]] at hw

/-- C8 (counterexample): for the candidate key: a: b the claim demands
the value a: b (the whole remainder after the first separator), but the
dirty parser stores only the middle segment a. -/
theorem c8_split_once_counterexample :
    _parse_dirty_json "key: a: b" = [("key", FieldValue.str "a")] ∧
    FieldValue.str "a" ≠ FieldValue.str "a: b" :=
  ⟨by decide, by decide⟩

/-- C8 (witness): the amended theorem applied to the single candidate
key: a: b, whose stored value is the middle segment a. -/
theorem c8_pair_split_witness :
    processPairs ["key: a: b"] [] = [("key", FieldValue.str "a")] :=
  (c8_pair_split_amended "key: a: b" [] [] "key" "a" ["b"]
    (by decide) (by decide) (by decide) (by decide)).trans (by decide)

/-- C9: the dirty parser is a total function; when strict parsing fails
and it recovers nothing the caller stores the raw message verbatim under
message plus the non-empty marker cwl_parser_exception = repr(exc), and
when it recovers at least one pair the caller returns the recovered
fields with the same marker set. -/
theorem c9_dirty_parser_fallback (jl : JsonLoads) (s : String) (exc : PyExc)
    (hfail : jl s = Except.error exc) :
    (_parse_dirty_json s = [] →
      _parse_single_event jl s =
        [("message", FieldValue.str s),
         ("cwl_parser_exception", FieldValue.str (reprExc exc))]) ∧
    (_parse_dirty_json s ≠ [] →
      _parse_single_event jl s =
        setKey (_parse_dirty_json s) "cwl_parser_exception" (FieldValue.str (reprExc exc))) ∧
    reprExc exc ≠ "" := by
  refine ⟨?_, ?_, ?_⟩
  · intro hempty
    unfold _parse_single_event
    rw [hfail]
    show (if (_parse_dirty_json s).isEmpty then _ else _) = _
    rw [hempty]
    rfl
  · intro hne
    unfold _parse_single_event
    rw [hfail]
    show (if (_parse_dirty_json s).isEmpty then _ else _) = _
    have hie : (_parse_dirty_json s).isEmpty = false := by
      cases hd : _parse_dirty_json s with
      | nil => exact absurd hd hne
      | cons x xs => rfl
    rw [hie]
    simp
  · intro h0
    have hlen := congrArg String.length h0
    simp only [reprExc, String.length_append,
      show ("(" : String).length = 1 from rfl,
      show (")" : String).length = 1 from rfl,
      show ("" : String).length = 0 from rfl] at hlen
    omega

/-- C9 (witness): json.loads raises on the word hello, the dirty parser
recovers nothing from it, and the caller returns the raw message with
the parse-failure marker. -/
theorem c9_dirty_parser_witness :
    _parse_single_event jlNone "hello" =
      [("message", FieldValue.str "hello"),
       ("cwl_parser_exception",
        FieldValue.str "JSONDecodeError(Expecting value: line 1 column 1 (char 0))")] :=
  (c9_dirty_parser_fallback jlNone "hello"
    ⟨"JSONDecodeError", "Expecting value: line 1 column 1 (char 0)"⟩ rfl).1 rfl

/-- C10: the record's @timestamp field is assigned after the payload
merge, so on every emitted action it equals the datetime derived from
the event's timestampMillis, whatever the payload contained — even a
top-level @timestamp key. -/
theorem c10_timestamp_assigned_last (jl : JsonLoads) (shared : Dict) (e : RawLogEvent)
    (a : IndexAction) (h : parseOneEvent jl shared e = Except.ok (some a)) :
    lookupD a._source "@timestamp" = some (FieldValue.time e.timestamp) := by
  obtain ⟨payload, hp, ha⟩ := parseOneEvent_ok_some jl shared e a h
  rw [ha]
  exact lookupD_setKey_self _ _ _

/-- C10 (witness): the action built for evPlain carries @timestamp
derived from the event's epoch millis. -/
theorem c10_timestamp_witness :
    lookupD aPlain._source "@timestamp" = some (FieldValue.time 1609459200000) :=
  c10_timestamp_assigned_last jlNone (sharedOf ldPlain) evPlain aPlain rfl
